import Mathlib

/-!
Verification development for the battlesnake-manager repository.

The Go sources are shallowly embedded: wall-clock instants and durations
(Go `time.Time` / `time.Duration`, both 64-bit nanosecond quantities) are
modelled as `Int` nanoseconds, the Go zero time `time.Time{}` as the origin
`0`; the process-wide `map[string]T` caches become association lists;
fallible operations return `Except`/`Option`; results of outbound runtime
calls (docker commands, inspects, subprocesses) are passed in as explicit
parameters so that each function is a pure image of the corresponding Go
control flow.
-/

namespace BattlesnakeManager

/-- One nanosecond is the unit; `time.Second` in Go. -/
def second : Int := 1000000000

/-- `time.Minute`. -/
def minute : Int := 60 * second

/-- `time.Hour`. -/
def hour : Int := 60 * minute

/-- Go's zero time `time.Time{}`, the origin of the modelled timeline. -/
def zeroTime : Int := 0

/-- The error taxonomy of the `docker` package (`ErrorNotRegistered`,
`ErrorDoesNotExist`, plus wrapped runtime/transport errors). -/
inductive DockerError where
  | NotRegistered
  | DoesNotExist
  | Runtime (code : Nat)
deriving DecidableEq, Repr

/-- `docker.ContainerState` from src/docker/cache.go. -/
structure ContainerState where
  Running : Bool := false
  Paused : Bool := false
  LastUsed : Option Int := none
  IPAddress : String := ""
  LastUpdate : Option Int := none
deriving DecidableEq, Repr

/-- The `containerStates` map, as an association list. -/
abbrev Cache := List (String × ContainerState)

/-- `docker.IsRegistered` (src/docker/cache.go). -/
def isRegistered (c : Cache) (name : String) : Bool :=
  (c.lookup name).isSome

/-- `docker.GetState` (src/docker/cache.go). -/
def GetState (c : Cache) (name : String) : Except DockerError ContainerState :=
  match c.lookup name with
  | none => .error .NotRegistered
  | some st => .ok st

/-- The Go map assignment `containerStates[name] = state` for a name already
present (every cache writer first checks presence). -/
def setEntry (c : Cache) (name : String) (st : ContainerState) : Cache :=
  c.map fun p => if p.1 = name then (name, st) else p

/-- The Go zero value `ContainerState{}`. -/
def ContainerState.empty : ContainerState :=
  ⟨false, false, none, "", none⟩

/-- `docker.RegisterContainer` (src/docker/cache.go): idempotent, creates an
empty entry only if absent. -/
def RegisterContainer (c : Cache) (name : String) : Cache :=
  if isRegistered c name then c else c ++ [(name, ContainerState.empty)]

/-- `docker.updateState` (src/docker/cache.go). -/
def updateState (now : Int) (c : Cache) (name : String)
    (running paused : Bool) (ip : String) : Except DockerError Cache :=
  match c.lookup name with
  | none => .error .NotRegistered
  | some st =>
      .ok (setEntry c name
        { st with Running := running, Paused := paused, IPAddress := ip,
                  LastUpdate := some now })

/-- `docker.updateRunning` (src/docker/cache.go). -/
def updateRunning (now : Int) (c : Cache) (name : String)
    (running paused : Bool) : Except DockerError Cache :=
  match c.lookup name with
  | none => .error .NotRegistered
  | some st =>
      .ok (setEntry c name
        { st with Running := running, Paused := paused, LastUpdate := some now })

/-- `docker.updatePaused` (src/docker/cache.go). -/
def updatePaused (now : Int) (c : Cache) (name : String)
    (paused : Bool) : Except DockerError Cache :=
  match c.lookup name with
  | none => .error .NotRegistered
  | some st =>
      .ok (setEntry c name { st with Paused := paused, LastUpdate := some now })

/-- `docker.UpdateUsed` (src/docker/cache.go). -/
def UpdateUsed (now : Int) (c : Cache) (name : String) : Except DockerError Cache :=
  match c.lookup name with
  | none => .error .NotRegistered
  | some st => .ok (setEntry c name { st with LastUsed := some now })

/-- `docker.IsStale` (src/docker/cache.go): unregistered, never refreshed, or
`time.Now().After(lastUpdate.Add(60s))`. -/
def IsStale (now : Int) (c : Cache) (name : String) : Bool :=
  match c.lookup name with
  | none => true
  | some st =>
      match st.LastUpdate with
      | none => true
      | some t => decide (t + 60 * second < now)

/-! ## The runtime client

`CheckContainer`, `StartContainer`, `StopContainer`, `PauseContainer`,
`UnpauseContainer` and `EnsureContainerRunning` appear in two revisions:
src/docker/init.go and src/unnamed/part_004.  They differ only in
`StartContainer` (part_004 follows the start command with a fresh inspect;
init.go writes `running=true, paused=false` without inspecting).  The docker
daemon's answers are passed in as parameters: `Option DockerError` for a
command's outcome (`none` = success) and `Except DockerError InspectJson` for
an inspect. -/

/-- The decoded body of `GET /containers/name/json`
(`ContainerStateJson`): the running/paused flags, the primary
`NetworkSettings` address, and the per-network addresses in the map's
(unspecified but fixed) iteration order. -/
structure InspectJson where
  Running : Bool
  Paused : Bool
  IPAddress : String
  Networks : List String
deriving DecidableEq, Repr

/-- `docker.CheckContainer`: inspect the container, derive the address
(primary field first, else the first non-empty per-network address), refresh
the cache via `updateState`, and report whether the container is serving
(running and not paused).  Identical in both revisions. -/
def CheckContainer (now : Int) (inspect : Except DockerError InspectJson)
    (c : Cache) (name : String) : Except DockerError (Bool × Cache) :=
  if !isRegistered c name then .error .NotRegistered
  else
    match inspect with
    | .error e => .error e
    | .ok res =>
        let ip := if res.IPAddress ≠ "" then res.IPAddress
                  else ((res.Networks.find? fun v => v ≠ "").getD "")
        match updateState now c name res.Running res.Paused ip with
        | .error e => .error e
        | .ok c2 => .ok (res.Running && !res.Paused, c2)

/-- `docker.StartContainer` of the part_004 revision (lines 168-181): issue the
start command, then force a fresh inspect through `CheckContainer` (the
address may have changed). -/
def StartContainer (now : Int) (cmdRes : Option DockerError)
    (inspect : Except DockerError InspectJson) (c : Cache) (name : String) :
    Except DockerError Cache :=
  if !isRegistered c name then .error .NotRegistered
  else
    match cmdRes with
    | some e => .error e
    | none =>
        match CheckContainer now inspect c name with
        | .error e => .error e
        | .ok r => .ok r.2

/-- `docker.StartContainer` of the src/docker/init.go revision (lines 138-148):
issue the start command, then write `running=true, paused=false` to the cache
with no fresh inspect. -/
def StartContainerOld (now : Int) (cmdRes : Option DockerError)
    (c : Cache) (name : String) : Except DockerError Cache :=
  if !isRegistered c name then .error .NotRegistered
  else
    match cmdRes with
    | some e => .error e
    | none => updateRunning now c name true false

/-- `docker.StopContainer` (identical in both revisions): stop command, then
`updateRunning(name, false, false)`. -/
def StopContainer (now : Int) (cmdRes : Option DockerError)
    (c : Cache) (name : String) : Except DockerError Cache :=
  if !isRegistered c name then .error .NotRegistered
  else
    match cmdRes with
    | some e => .error e
    | none => updateRunning now c name false false

/-- `docker.PauseContainer` (identical in both revisions): pause command, then
`updatePaused(name, true)`. -/
def PauseContainer (now : Int) (cmdRes : Option DockerError)
    (c : Cache) (name : String) : Except DockerError Cache :=
  if !isRegistered c name then .error .NotRegistered
  else
    match cmdRes with
    | some e => .error e
    | none => updatePaused now c name true

/-- `docker.UnpauseContainer` (identical in both revisions): unpause command,
then `updatePaused(name, false)`. -/
def UnpauseContainer (now : Int) (cmdRes : Option DockerError)
    (c : Cache) (name : String) : Except DockerError Cache :=
  if !isRegistered c name then .error .NotRegistered
  else
    match cmdRes with
    | some e => .error e
    | none => updatePaused now c name false

/-- The tail of `docker.EnsureContainerRunning` after the optional freshness
refresh: read the state via `GetState`; unpause if running-and-paused, start
if not running, else no-op.  Split out of `EnsureContainerRunning` purely for
proof structure; the Go body is the sequential composition of the two. -/
def ensureAfterRefresh (now : Int) (cmdRes : Option DockerError)
    (startInspect : Except DockerError InspectJson)
    (c1 : Cache) (name : String) : Except DockerError Cache :=
  match GetState c1 name with
  | .error e => .error e
  | .ok st =>
      if st.Running && st.Paused then UnpauseContainer now cmdRes c1 name
      else if !st.Running then StartContainer now cmdRes startInspect c1 name
      else .ok c1

/-- `docker.EnsureContainerRunning` of the part_004 revision (lines 146-166;
init.go lines 116-136 are identical up to the `StartContainer` they call): if
stale, force a fresh inspect (propagating its error); then unpause, start,
or no-op as the state dictates.  `staleInspect` answers the freshness
inspect, `cmdRes` the one runtime command issued (unpause or start), and
`startInspect` the inspect that part_004's `StartContainer` performs. -/
def EnsureContainerRunning (now : Int)
    (staleInspect : Except DockerError InspectJson)
    (cmdRes : Option DockerError)
    (startInspect : Except DockerError InspectJson)
    (c : Cache) (name : String) : Except DockerError Cache :=
  if IsStale now c name then
    match CheckContainer now staleInspect c name with
    | .error e => .error e
    | .ok r => ensureAfterRefresh now cmdRes startInspect r.2 name
  else ensureAfterRefresh now cmdRes startInspect c name

/-! ## The lifecycle scheduler, both revisions

`stopOldContainersJob` appears in two revisions of the program's main file:
src/unnamed/part_000 (initial `nextRunner` of one minute, absent `LastUsed`
measured from the Go zero time, `timeSince = now - lastUsed`) and
src/unnamed/part_001 (initial `nextRunner` of one hour, absent `LastUsed`
measured as zero, `timeSince = lastUsed - now`). -/

/-- The `timeSince` computation of the part_000 revision (lines 68-71). -/
def timeSince_v0 (now : Int) (c : ContainerState) : Int :=
  match c.LastUsed with
  | none => now - zeroTime
  | some t => now - t

/-- The `timeSince` computation of the part_001 revision (lines 52-55). -/
def timeSince_v1 (now : Int) (c : ContainerState) : Int :=
  match c.LastUsed with
  | none => 0
  | some t => t - now

/-- Result of one scheduler pass: the accumulators of `stopOldContainersJob`. -/
structure JobResult where
  nextRunner : Int
  toStop : List String
  toPause : List String
deriving DecidableEq, Repr

/-- Loop body of `stopOldContainersJob` in the part_000 revision
(the closure passed to `docker.IterContainers`, lines 67-89). -/
def jobStep_v0 (now : Int) (acc : JobResult) (p : String × ContainerState) : JobResult :=
  let timeSince := timeSince_v0 now p.2
  if p.2.Running then
    if !p.2.Paused then
      if timeSince < minute then
        { acc with nextRunner := min acc.nextRunner (minute - timeSince) }
      else
        { acc with toPause := acc.toPause ++ [p.1] }
    else
      if timeSince < hour then
        { acc with nextRunner := min acc.nextRunner (hour - timeSince) }
      else
        { acc with toStop := acc.toStop ++ [p.1] }
  else acc

/-- Loop body of `stopOldContainersJob` in the part_001 revision (lines 51-73);
identical branch structure, different `timeSince`. -/
def jobStep_v1 (now : Int) (acc : JobResult) (p : String × ContainerState) : JobResult :=
  let timeSince := timeSince_v1 now p.2
  if p.2.Running then
    if !p.2.Paused then
      if timeSince < minute then
        { acc with nextRunner := min acc.nextRunner (minute - timeSince) }
      else
        { acc with toPause := acc.toPause ++ [p.1] }
    else
      if timeSince < hour then
        { acc with nextRunner := min acc.nextRunner (hour - timeSince) }
      else
        { acc with toStop := acc.toStop ++ [p.1] }
  else acc

/-- `stopOldContainersJob` of the part_000 revision (lines 59-109): classify the
snapshot, starting from `nextRunner := time.Minute`.  The value returned to the
perpetual loop is `nextRunner`; the stop/pause actions are applied to the
accumulated name lists. -/
def stopOldContainersJob_v0 (now : Int) (cs : List (String × ContainerState)) : JobResult :=
  cs.foldl (jobStep_v0 now) { nextRunner := minute, toStop := [], toPause := [] }

/-- `stopOldContainersJob` of the part_001 revision (lines 43-95), starting from
`nextRunner := time.Hour`. -/
def stopOldContainersJob_v1 (now : Int) (cs : List (String × ContainerState)) : JobResult :=
  cs.foldl (jobStep_v1 now) { nextRunner := hour, toStop := [], toPause := [] }

/-- Per-instance next-delay contribution in the part_000 revision: the value
`min`-folded into `nextRunner` by `jobStep_v0`, when the instance is kept. -/
def contribution_v0 (now : Int) (c : ContainerState) : Option Int :=
  if c.Running then
    if !c.Paused then
      if timeSince_v0 now c < minute then some (minute - timeSince_v0 now c) else none
    else
      if timeSince_v0 now c < hour then some (hour - timeSince_v0 now c) else none
  else none

/-- Per-instance next-delay contribution in the part_001 revision. -/
def contribution_v1 (now : Int) (c : ContainerState) : Option Int :=
  if c.Running then
    if !c.Paused then
      if timeSince_v1 now c < minute then some (minute - timeSince_v1 now c) else none
    else
      if timeSince_v1 now c < hour then some (hour - timeSince_v1 now c) else none
  else none

/-- Pause-due classification of `jobStep_v0`. -/
def pauseDue_v0 (now : Int) (c : ContainerState) : Bool :=
  c.Running && !c.Paused && !(decide (timeSince_v0 now c < minute))

/-- Stop-due classification of `jobStep_v0`. -/
def stopDue_v0 (now : Int) (c : ContainerState) : Bool :=
  c.Running && c.Paused && !(decide (timeSince_v0 now c < hour))

/-- Pause-due classification of `jobStep_v1`. -/
def pauseDue_v1 (now : Int) (c : ContainerState) : Bool :=
  c.Running && !c.Paused && !(decide (timeSince_v1 now c < minute))

/-- Stop-due classification of `jobStep_v1`. -/
def stopDue_v1 (now : Int) (c : ContainerState) : Bool :=
  c.Running && c.Paused && !(decide (timeSince_v1 now c < hour))

/-! ## The webhook entry point, both revisions

`githubWebhookHandler` appears in two revisions: src/api/github.go (a
`secrets` map, the event read from the JSON `action` field and inspected
before the signature check, no ref filtering, no build lock) and
src/unnamed/part_003 (a `buildConfig` map with per-repository secret, build
mutex and queued flag; the event read from the `X-GitHub-Event` header after
the signature check; ref filtering down to the default branch).  HTTP and
JSON plumbing is modelled at its boundary: the raw body is `none` when
reading it failed, and each `json.Unmarshal` result is an `Option` field of
the request.  The HMAC computation inside `checkSecret` is abstracted as a
function argument `hmacBytes` from algorithm, secret and payload to the MAC
bytes; everything else in `checkSecret` is embedded. -/

/-- Outcomes of `checkSecret`, mirroring its four error returns. -/
inductive SecretErr where
  | badSignature
  | unsupportedAlgorithm
  | hexError
  | signatureInvalid
deriving DecidableEq, Repr

/-- One hexadecimal digit, as `encoding/hex` accepts it. -/
def hexDigit (c : Char) : Option Nat :=
  if '0' ≤ c ∧ c ≤ '9' then some (c.toNat - '0'.toNat)
  else if 'a' ≤ c ∧ c ≤ 'f' then some (c.toNat - 'a'.toNat + 10)
  else if 'A' ≤ c ∧ c ≤ 'F' then some (c.toNat - 'A'.toNat + 10)
  else none

/-- `hex.DecodeString` over a character list: bytes from digit pairs, failing
on an odd length or a non-hex character. -/
def hexDecodeList : List Char → Option (List Nat)
  | [] => some []
  | [_] => none
  | a :: b :: rest =>
      match hexDigit a, hexDigit b, hexDecodeList rest with
      | some hi, some lo, some tail => some ((hi * 16 + lo) :: tail)
      | _, _, _ => none

/-- `hex.DecodeString`. -/
def hexDecode (s : String) : Option (List Nat) :=
  hexDecodeList s.data

/-- `strings.Split(s, c)` for a one-character separator, over characters. -/
def splitOnChar (c : Char) : List Char → List (List Char)
  | [] => [[]]
  | a :: rest =>
      let r := splitOnChar c rest
      if a = c then [] :: r
      else
        match r with
        | [] => [[a]]
        | x :: xs => (a :: x) :: xs

/-- `strings.Split(s, c)` for a one-character separator. -/
def goSplit (s : String) (c : Char) : List String :=
  (splitOnChar c s.data).map fun l => ⟨l⟩

/-- `strings.SplitN(s, c, 2)` for a one-character separator: at most one cut,
at the first occurrence. -/
def splitN2 (s : String) (c : Char) : List String :=
  match goSplit s c with
  | [] => [s]
  | [x] => [x]
  | x :: rest => [x, String.intercalate ⟨[c]⟩ rest]

/-- `strings.HasPrefix`. -/
def strStartsWith (s p : String) : Bool :=
  s.data.take p.data.length == p.data

/-- `checkSecret` (identical structure in both revisions, only the mismatch
message differs): split the signature header at the first `=` into algorithm
and hex digest, accept only sha1/sha256, hex-decode the digest, and compare
the HMAC of the payload under the secret against it. -/
def checkSecret (hmacBytes : String → String → String → List Nat)
    (payload : String) (secret : String) (sig : String) : Option SecretErr :=
  let splits := splitN2 sig '='
  if splits.length ≠ 2 then some .badSignature
  else
    let sigType := (splits.get? 0).getD ""
    let digest := (splits.get? 1).getD ""
    if sigType = "sha1" ∨ sigType = "sha256" then
      match hexDecode digest with
      | none => some .hexError
      | some sum =>
          if hmacBytes sigType secret payload = sum then none
          else some .signatureInvalid
    else some .unsupportedAlgorithm

/-- The `repository` payload struct of the part_003 revision. -/
structure repository where
  Private : Bool
  FullName : String
  DefaultBranch : String
deriving DecidableEq, Repr

/-- The `pushRequest` payload struct of the part_003 revision. -/
structure pushRequest where
  Ref : String
  Repository : repository
deriving DecidableEq, Repr

/-- `buildConfigT` of the part_003 revision: per-repository webhook secret,
build mutex (modelled as a `locked` flag) and the pending-rebuild flag. -/
structure buildConfigT where
  Secret : String
  locked : Bool
  Queued : Bool
deriving DecidableEq, Repr

/-- Map update on the `buildConfig` association list (the Go code mutates the
entry through a pointer). -/
def setCfg (cfgs : List (String × buildConfigT)) (name : String)
    (c : buildConfigT) : List (String × buildConfigT) :=
  cfgs.map fun p => if p.1 = name then (name, c) else p

/-- An inbound webhook request as the part_003 handler reads it: the header
fields, the raw body (`none` models an `io.ReadAll` failure), and the
`json.Unmarshal` result (`none` models a parse failure). -/
structure WebhookRequest where
  event : String
  sig : String
  sig256 : String
  contentType : String
  agent : String
  body : Option String
  parsed : Option pushRequest
deriving DecidableEq, Repr

/-- What the part_003 handler does with a request: the response status, whether
`deployApplication` was spawned, whether the queued flag was set (TryLock
failed), and the build-config map afterwards. -/
structure HandlerResult where
  status : Nat
  deployStarted : Bool
  queuedSet : Bool
  cfg : List (String × buildConfigT)
deriving DecidableEq, Repr

/-- Lines 194-209 of the part_003 handler: the TryLock/queue coalescing entry
reached once all checks passed.  A held mutex (TryLock failure) sets the
queued flag and acknowledges; otherwise the lock is taken and
`deployApplication` spawned. -/
def webhookTrigger (config : List (String × buildConfigT))
    (request : pushRequest) (conf : buildConfigT) : HandlerResult :=
  if conf.locked then
    ⟨200, false, true,
      setCfg config request.Repository.FullName { conf with Queued := true }⟩
  else
    ⟨200, true, false,
      setCfg config request.Repository.FullName { conf with locked := true }⟩

/-- Lines 160-192 of the part_003 handler: the ref filter.  Only a ref that
splits on "/" into exactly ["refs", "heads", default branch] reaches the
trigger; everything else is acknowledged 200 without building. -/
def webhookRefGate (config : List (String × buildConfigT))
    (request : pushRequest) (conf : buildConfigT) : HandlerResult :=
  if (goSplit request.Ref '/').length ≠ 3 ∨
      (goSplit request.Ref '/').get? 0 ≠ some "refs" then
    ⟨200, false, false, config⟩
  else if (goSplit request.Ref '/').get? 1 = some "tags" then
    ⟨200, false, false, config⟩
  else if (goSplit request.Ref '/').get? 1 ≠ some "heads" then
    ⟨200, false, false, config⟩
  else if (goSplit request.Ref '/').get? 2 ≠ some request.Repository.DefaultBranch then
    ⟨200, false, false, config⟩
  else webhookTrigger config request conf

/-- Lines 142-158 of the part_003 handler: after the signature verified, a
ping short-circuits 200, a non-push is rejected 403, a private repository 500,
and a push proceeds to the ref filter. -/
def webhookEventGate (config : List (String × buildConfigT)) (r : WebhookRequest)
    (request : pushRequest) (conf : buildConfigT) : HandlerResult :=
  if r.event = "ping" then ⟨200, false, false, config⟩
  else if r.event ≠ "push" then ⟨403, false, false, config⟩
  else if request.Repository.Private then ⟨500, false, false, config⟩
  else webhookRefGate config request conf

/-- `githubWebhookHandler` of the part_003 revision (lines 87-209): user-agent
and content-type gates, body read, JSON parse, config lookup (the sha256
header shadows the sha1 one when present), then the signature check; only
after it passes is the event inspected (`webhookEventGate`, then
`webhookRefGate`, then `webhookTrigger` — the stages are split out of the one
Go function body purely for proof structure). -/
def githubWebhookHandler (hmacBytes : String → String → String → List Nat)
    (config : List (String × buildConfigT)) (r : WebhookRequest) : HandlerResult :=
  if !(strStartsWith r.agent "GitHub-Hookshot/") then ⟨401, false, false, config⟩
  else if r.contentType ≠ "application/json" then ⟨400, false, false, config⟩
  else
    match r.body with
    | none => ⟨400, false, false, config⟩
    | some body =>
        match r.parsed with
        | none => ⟨400, false, false, config⟩
        | some request =>
            match config.lookup request.Repository.FullName with
            | none => ⟨401, false, false, config⟩
            | some conf =>
                if (checkSecret hmacBytes body conf.Secret
                      (if r.sig256 ≠ "" then r.sig256 else r.sig)).isSome then
                  ⟨401, false, false, config⟩
                else webhookEventGate config r request conf

/-- The `repository` payload struct of the src/api/github.go revision (no
default branch field). -/
structure repositoryOld where
  Private : Bool
  FullName : String
deriving DecidableEq, Repr

/-- The `pushRequest` payload struct of the src/api/github.go revision. -/
structure pushRequestOld where
  Ref : String
  Repository : repositoryOld
deriving DecidableEq, Repr

/-- An inbound webhook request as the src/api/github.go handler reads it: the
event comes from the JSON `action` field (`parsedAction`), and the push
payload is a second `json.Unmarshal` of the same body (`parsedPush`). -/
structure WebhookRequestOld where
  sig : String
  sig256 : String
  contentType : String
  agent : String
  body : Option String
  parsedAction : Option String
  parsedPush : Option pushRequestOld
deriving DecidableEq, Repr

/-- Response of the src/api/github.go handler: status and whether
`deployApplication` was spawned. -/
structure HandlerResultOld where
  status : Nat
  deployStarted : Bool
deriving DecidableEq, Repr

/-- `fullNameToContainerName` of the src/api/github.go revision. -/
def fullNameToContainerName (fullName : String) : String :=
  "battlesnake-" ++ ⟨fullName.data.map fun ch => if ch = '/' then '-' else ch⟩

/-- `githubWebhookHandler` of the src/api/github.go revision (lines 82-166):
user-agent and content-type gates, body read, `action` parse, then ping/push
inspection BEFORE the signature check; the secret is looked up under the
container name (a missing entry yields the empty secret, as a nil byte slice
does); no ref filtering — every validly signed push to a public repository
spawns the build. -/
def githubWebhookHandlerOld (hmacBytes : String → String → String → List Nat)
    (secrets : List (String × String)) (r : WebhookRequestOld) : HandlerResultOld :=
  if !(strStartsWith r.agent "GitHub-Hookshot/") then ⟨401, false⟩
  else if r.contentType ≠ "application/json" then ⟨400, false⟩
  else
    match r.body with
    | none => ⟨400, false⟩
    | some body =>
        match r.parsedAction with
        | none => ⟨400, false⟩
        | some act =>
            if act = "ping" then ⟨200, false⟩
            else if act ≠ "push" then ⟨403, false⟩
            else
              match r.parsedPush with
              | none => ⟨400, false⟩
              | some request =>
                  if (checkSecret hmacBytes body
                        ((secrets.lookup
                          (fullNameToContainerName request.Repository.FullName)).getD "")
                        (if r.sig256 ≠ "" then r.sig256 else r.sig)).isSome then
                    ⟨401, false⟩
                  else if request.Repository.Private then ⟨500, false⟩
                  else ⟨200, true⟩

/-! ## The deployment coordinator's lock/queue protocol (part_003)

The per-repository `BuildingMutex`/`Queued` pair of `buildConfigT` drives a
coalescing protocol between the webhook trigger (part_003 lines 194-209) and
the deferred completion handler of `deployApplication` (lines 231-240).  It is
modelled, as the spec's design notes direct, as a state machine with atomic
transitions: `requestBuild` is the trigger's TryLock-or-set-queued step and
`finishDeploy` the defer's clear-and-rerun-or-unlock step; `buildStep` counts
the deploy runs each step starts. -/

/-- One repository's lock/queue state: mutex held, rebuild queued. -/
structure BuildState where
  locked : Bool
  queued : Bool
deriving DecidableEq, Repr

/-- The two protocol events: a validated webhook build request arriving, and
an in-flight `deployApplication` body completing (success or failure). -/
inductive BuildEvent where
  | request
  | finish
deriving DecidableEq, Repr

/-- The trigger step: `TryLock` success takes the mutex and starts a deploy
(second component `true`); failure sets `Queued` and acknowledges without
starting work. -/
def requestBuild (s : BuildState) : BuildState × Bool :=
  if s.locked then ({ s with queued := true }, false)
  else ({ locked := true, queued := s.queued }, true)

/-- The completion step (the defer): if `Queued` is set, clear it and re-run
`deployApplication` while still holding the mutex (second component `true`);
otherwise release the mutex. -/
def finishDeploy (s : BuildState) : BuildState × Bool :=
  if s.queued then ({ locked := s.locked, queued := false }, true)
  else ({ s with locked := false }, false)

/-- One atomic protocol step, counting the deploy runs started so far. -/
def buildStep : BuildState × Nat → BuildEvent → BuildState × Nat
  | (s, n), .request =>
      ((requestBuild s).1, n + (if (requestBuild s).2 then 1 else 0))
  | (s, n), .finish =>
      ((finishDeploy s).1, n + (if (finishDeploy s).2 then 1 else 0))

/-- A sequence of protocol events from a given state and run count. -/
def runBuildEvents (init : BuildState × Nat) (evs : List BuildEvent) : BuildState × Nat :=
  evs.foldl buildStep init

/-! ## deployApplication (part_003 lines 222-369), build phase

The build procedure is embedded as a pure function of the outcomes of its
external steps, passed in a `DeployEnv`: the config lookup, the initial
`docker.CheckContainer` (which also refreshes the cache), the `docker images`
snapshot subprocess (pipe / start / read; a `Wait` error is only logged, part_003
lines 292-295), `MkdirTemp`, `git clone`, `docker build`, `docker.StopContainer`
(the only cache write in the procedure besides the two inspects), `docker rm`,
`docker run`, and the verifying `CheckContainer`.  The returned `DeployTrace`
records the externally visible effects.  The deferred `os.RemoveAll` is
modelled by `dirRemoved := true` on every exit path after a successful
`MkdirTemp`; the stages after the container-existence check and after the
scratch directory exists are split into helper functions purely for proof
structure — the Go body is their sequential composition. -/

/-- Effects of one `deployApplication` run. -/
structure DeployTrace where
  stopAttempted : Bool := false
  stoppedOld : Bool := false
  removedOld : Bool := false
  ranNew : Bool := false
  dirCreated : Bool := false
  dirRemoved : Bool := false
  rmiAttempts : List String := []
  succeeded : Bool := false
deriving DecidableEq, Repr

/-- The trace of a run that aborted before creating the scratch directory. -/
def emptyTrace : DeployTrace :=
  ⟨false, false, false, false, false, false, [], false⟩

/-- Outcomes of the external steps of one `deployApplication` run. -/
structure DeployEnv where
  confFound : Bool
  checkContainer : Except DockerError InspectJson
  pipeOk : Bool
  imagesStartOk : Bool
  imagesReadOk : Bool
  imagesWaitOk : Bool
  imageLines : List (Option String)
  mkdirOk : Bool
  cloneOk : Bool
  buildOk : Bool
  stopRes : Option DockerError
  rmOk : Bool
  runOk : Bool
  verify : Except DockerError InspectJson
deriving Repr

/-- The image-pruning loop (part_003 lines 345-366): walk the pre-build
snapshot lines, skip unparseable ones, deduplicate ids via `seenIds`, and
attempt `docker rmi` on each id seen for the first time (an rmi failure is
logged and the loop continues, so every first-seen id is an attempt).  The
newly built image's id is never computed or compared. -/
def imageCleanupIds (lines : List (Option String)) : List String :=
  lines.foldl
    (fun seen l =>
      match l with
      | none => seen
      | some id => if id ∈ seen then seen else seen ++ [id])
    []

/-- `deployApplication` from `docker run` onward (lines 327-369): run the new
container, verify it exists, then prune the snapshot images.  `stopped` and
`removed` record what happened to the pre-existing container. -/
def deployRunPhase (env : DeployEnv) (stopped removed : Bool) : DeployTrace :=
  if !env.runOk then
    { stopAttempted := stopped, stoppedOld := stopped, removedOld := removed,
      dirCreated := true, dirRemoved := true }
  else
    match env.verify with
    | .error _ =>
        { stopAttempted := stopped, stoppedOld := stopped, removedOld := removed,
          ranNew := true, dirCreated := true, dirRemoved := true }
    | .ok _ =>
        { stopAttempted := stopped, stoppedOld := stopped, removedOld := removed,
          ranNew := true, dirCreated := true, dirRemoved := true,
          rmiAttempts := imageCleanupIds env.imageLines, succeeded := true }

/-- `deployApplication` from `git clone` onward (lines 308-329), with the
scratch directory in place: clone, build, then — only if both succeeded — stop
and remove a pre-existing container and proceed to the run phase. -/
def deployBuildPhase (env : DeployEnv) (exists0 : Bool) : DeployTrace :=
  if !env.cloneOk then { dirCreated := true, dirRemoved := true }
  else if !env.buildOk then { dirCreated := true, dirRemoved := true }
  else if exists0 then
    match env.stopRes with
    | some _ => { stopAttempted := true, dirCreated := true, dirRemoved := true }
    | none =>
        if !env.rmOk then
          { stopAttempted := true, stoppedOld := true,
            dirCreated := true, dirRemoved := true }
        else deployRunPhase env true true
  else deployRunPhase env false false

/-- `deployApplication` after the container-existence check (lines 275-306):
the `docker images` snapshot, the scratch `MkdirTemp`, then the build phase. -/
def deployAfterCheck (env : DeployEnv) (exists0 : Bool) : DeployTrace :=
  if !env.pipeOk then emptyTrace
  else if !env.imagesStartOk then emptyTrace
  else if !env.imagesReadOk then emptyTrace
  else if !env.mkdirOk then emptyTrace
  else deployBuildPhase env exists0

/-- `deployApplication` of the part_003 revision (lines 222-369), effects
only (the lock/queue defer is the separate `finishDeploy` step): config
lookup, existence check (`ErrorDoesNotExist` means no pre-existing container;
any other inspect error aborts), then the snapshot/build/swap/prune
pipeline. -/
def deployApplication (env : DeployEnv) : DeployTrace :=
  if !env.confFound then emptyTrace
  else
    match env.checkContainer with
    | .error .DoesNotExist => deployAfterCheck env false
    | .error _ => emptyTrace
    | .ok _ => deployAfterCheck env true

theorem job_v0_foldl (now : Int) (cs : List (String × ContainerState)) (acc : JobResult) :
    cs.foldl (jobStep_v0 now) acc =
      { nextRunner := (cs.filterMap fun p => contribution_v0 now p.2).foldl min acc.nextRunner,
        toStop := acc.toStop ++ (cs.filter fun p => stopDue_v0 now p.2).map Prod.fst,
        toPause := acc.toPause ++ (cs.filter fun p => pauseDue_v0 now p.2).map Prod.fst } := by
  induction cs generalizing acc with
  | nil => simp
  | cons p rest ih =>
    simp only [List.foldl_cons, List.filterMap_cons, List.filter_cons, ih]
    by_cases hr : p.2.Running
    · by_cases hp : p.2.Paused
      · by_cases ht : timeSince_v0 now p.2 < hour
        · simp [jobStep_v0, contribution_v0, pauseDue_v0, stopDue_v0, hr, hp, ht]
        · simp [jobStep_v0, contribution_v0, pauseDue_v0, stopDue_v0, hr, hp, ht,
            not_lt.mp ht]
      · by_cases ht : timeSince_v0 now p.2 < minute
        · simp [jobStep_v0, contribution_v0, pauseDue_v0, stopDue_v0, hr, hp, ht]
        · simp [jobStep_v0, contribution_v0, pauseDue_v0, stopDue_v0, hr, hp, ht]
    · simp [jobStep_v0, contribution_v0, pauseDue_v0, stopDue_v0, hr]

theorem job_v1_foldl (now : Int) (cs : List (String × ContainerState)) (acc : JobResult) :
    cs.foldl (jobStep_v1 now) acc =
      { nextRunner := (cs.filterMap fun p => contribution_v1 now p.2).foldl min acc.nextRunner,
        toStop := acc.toStop ++ (cs.filter fun p => stopDue_v1 now p.2).map Prod.fst,
        toPause := acc.toPause ++ (cs.filter fun p => pauseDue_v1 now p.2).map Prod.fst } := by
  induction cs generalizing acc with
  | nil => simp
  | cons p rest ih =>
    simp only [List.foldl_cons, List.filterMap_cons, List.filter_cons, ih]
    by_cases hr : p.2.Running
    · by_cases hp : p.2.Paused
      · by_cases ht : timeSince_v1 now p.2 < hour
        · simp [jobStep_v1, contribution_v1, pauseDue_v1, stopDue_v1, hr, hp, ht]
        · simp [jobStep_v1, contribution_v1, pauseDue_v1, stopDue_v1, hr, hp, ht]
      · by_cases ht : timeSince_v1 now p.2 < minute
        · simp [jobStep_v1, contribution_v1, pauseDue_v1, stopDue_v1, hr, hp, ht]
        · simp [jobStep_v1, contribution_v1, pauseDue_v1, stopDue_v1, hr, hp, ht]
    · simp [jobStep_v1, contribution_v1, pauseDue_v1, stopDue_v1, hr]

theorem job_v0_characterization (now : Int) (cs : List (String × ContainerState)) :
    stopOldContainersJob_v0 now cs =
      { nextRunner := (cs.filterMap fun p => contribution_v0 now p.2).foldl min minute,
        toStop := (cs.filter fun p => stopDue_v0 now p.2).map Prod.fst,
        toPause := (cs.filter fun p => pauseDue_v0 now p.2).map Prod.fst } := by
  simpa [stopOldContainersJob_v0] using job_v0_foldl now cs
    { nextRunner := minute, toStop := [], toPause := [] }

theorem job_v1_characterization (now : Int) (cs : List (String × ContainerState)) :
    stopOldContainersJob_v1 now cs =
      { nextRunner := (cs.filterMap fun p => contribution_v1 now p.2).foldl min hour,
        toStop := (cs.filter fun p => stopDue_v1 now p.2).map Prod.fst,
        toPause := (cs.filter fun p => pauseDue_v1 now p.2).map Prod.fst } := by
  simpa [stopOldContainersJob_v1] using job_v1_foldl now cs
    { nextRunner := hour, toStop := [], toPause := [] }

/-! ## Claims C2, C3, C4: the lifecycle scheduler -/

/-- C2 (amended): for every scheduler pass, the returned sleep duration equals
the minimum of an initial constant and the next-delay contributions
(threshold − computed timeSince) of all kept running instances; the constant is
one minute in the part_000 revision and one hour in the part_001 revision, so
it is the fallback when no instance contributes and it caps any larger
minimum contribution. -/
theorem claim_C2_scheduler_delay (now : Int) (cs : List (String × ContainerState)) :
    (stopOldContainersJob_v0 now cs).nextRunner
        = (cs.filterMap fun p => contribution_v0 now p.2).foldl min minute ∧
    (stopOldContainersJob_v1 now cs).nextRunner
        = (cs.filterMap fun p => contribution_v1 now p.2).foldl min hour := by
  refine ⟨?_, ?_⟩
  · rw [job_v0_characterization]
  · rw [job_v1_characterization]

/-- C2 counterexample: in the part_000 revision, a pass over an empty snapshot
returns one minute, not the claimed one-hour fallback; and a single kept paused
instance idle for 30 minutes contributes 30 minutes, yet the pass returns one
minute, strictly below the minimum contribution. -/
theorem claim_C2_counterexample :
    (stopOldContainersJob_v0 0 []).nextRunner = minute ∧
    minute ≠ hour ∧
    (stopOldContainersJob_v0 (2 * hour)
        [("a", ⟨true, true, some (2 * hour - 30 * minute), "", none⟩)]).nextRunner
      = minute ∧
    contribution_v0 (2 * hour) ⟨true, true, some (2 * hour - 30 * minute), "", none⟩
      = some (30 * minute) ∧
    minute < 30 * minute := by
  refine ⟨by decide, by decide, by decide, by decide, by decide⟩

/-- C3 (amended): in the part_000 revision an instance with `running = true` and
absent `lastUsed` has its idle measured from the Go zero time, so whenever the
clock reads at least one hour past the zero time the instance is pause-due when
not paused and stop-due when paused, never kept; in the part_001 revision an
absent `lastUsed` yields a timeSince of zero, so the instance is kept and
contributes the full threshold. -/
theorem claim_C3_absent_lastUsed (now : Int) (cs : List (String × ContainerState))
    (name : String) (st : ContainerState)
    (hnow : hour ≤ now) (hmem : (name, st) ∈ cs)
    (hrun : st.Running = true) (hlu : st.LastUsed = none) :
    (st.Paused = false → name ∈ (stopOldContainersJob_v0 now cs).toPause) ∧
    (st.Paused = true → name ∈ (stopOldContainersJob_v0 now cs).toStop) ∧
    pauseDue_v1 now st = false ∧
    stopDue_v1 now st = false ∧
    (st.Paused = false → contribution_v1 now st = some minute) ∧
    (st.Paused = true → contribution_v1 now st = some hour) := by
  have hts0 : timeSince_v0 now st = now := by
    simp [timeSince_v0, hlu, zeroTime]
  have hts1 : timeSince_v1 now st = 0 := by
    simp [timeSince_v1, hlu]
  have hmin : ¬ now < minute := by
    intro h
    have : minute < hour := by decide
    omega
  have hhour : ¬ now < hour := by omega
  refine ⟨?_, ?_, ?_, ?_, ?_, ?_⟩
  · intro hp
    rw [job_v0_characterization]
    refine List.mem_map.mpr ⟨(name, st), List.mem_filter.mpr ⟨hmem, ?_⟩, rfl⟩
    simp [pauseDue_v0, hrun, hp, hts0, hmin]
  · intro hp
    rw [job_v0_characterization]
    refine List.mem_map.mpr ⟨(name, st), List.mem_filter.mpr ⟨hmem, ?_⟩, rfl⟩
    simp [stopDue_v0, hrun, hp, hts0, hhour]
  · simp [pauseDue_v1, hts1]
    intro _ _
    decide
  · simp [stopDue_v1, hts1]
    intro _ _
    decide
  · intro hp
    simp [contribution_v1, hrun, hp, hts1]
    decide
  · intro hp
    simp [contribution_v1, hrun, hp, hts1]
    decide

/-- C3 witness: at one hour past the zero time, a running unpaused instance
that was never used is marked pause-due by the part_000 revision and is kept
(not pause-due) by the part_001 revision. -/
theorem claim_C3_witness :
    "a" ∈ (stopOldContainersJob_v0 hour [("a", ⟨true, false, none, "", none⟩)]).toPause ∧
    pauseDue_v1 hour ⟨true, false, none, "", none⟩ = false := by
  have h := claim_C3_absent_lastUsed hour [("a", ⟨true, false, none, "", none⟩)] "a"
      ⟨true, false, none, "", none⟩ (by decide) (by simp) rfl rfl
  exact ⟨h.1 rfl, h.2.2.1⟩

/-- C3 counterexample: in the part_001 revision a running unpaused instance
with absent `lastUsed` is kept — it appears in neither action list and
contributes one minute to the next delay — contradicting "classified pause-due
when not paused, never kept". -/
theorem claim_C3_counterexample :
    (stopOldContainersJob_v1 hour [("a", ⟨true, false, none, "", none⟩)]).toPause = [] ∧
    (stopOldContainersJob_v1 hour [("a", ⟨true, false, none, "", none⟩)]).toStop = [] ∧
    (stopOldContainersJob_v1 hour [("a", ⟨true, false, none, "", none⟩)]).nextRunner
      = minute := by
  refine ⟨by decide, by decide, by decide⟩

/-- C4: the claimed classification (idle below one minute keeps an unpaused
instance with contribution one minute − idle, at or above one minute marks it
pause-due; idle below one hour keeps a paused instance with contribution one
hour − idle, at or above one hour marks it stop-due; non-running instances are
ignored) holds of the part_000 revision with idle = now − lastUsed; the
part_001 revision instead compares lastUsed − now against the thresholds, so an
unpaused instance idle for 90 seconds — pause-due under the claim, and marked
pause-due by part_000 — is kept by part_001. -/
theorem claim_C4_classification :
    (∀ (now : Int) (st : ContainerState) (lu : Int),
      st.LastUsed = some lu → st.Running = true →
      (st.Paused = false →
        (now - lu < minute →
          contribution_v0 now st = some (minute - (now - lu)) ∧
          pauseDue_v0 now st = false ∧ stopDue_v0 now st = false) ∧
        (minute ≤ now - lu →
          pauseDue_v0 now st = true ∧ contribution_v0 now st = none)) ∧
      (st.Paused = true →
        (now - lu < hour →
          contribution_v0 now st = some (hour - (now - lu)) ∧
          pauseDue_v0 now st = false ∧ stopDue_v0 now st = false) ∧
        (hour ≤ now - lu →
          stopDue_v0 now st = true ∧ contribution_v0 now st = none))) ∧
    (∀ (now : Int) (st : ContainerState), st.Running = false →
      pauseDue_v0 now st = false ∧ stopDue_v0 now st = false ∧
      contribution_v0 now st = none) ∧
    ((stopOldContainersJob_v1 hour
        [("a", ⟨true, false, some (hour - 90 * second), "", none⟩)]).toPause = [] ∧
     (stopOldContainersJob_v0 hour
        [("a", ⟨true, false, some (hour - 90 * second), "", none⟩)]).toPause = ["a"] ∧
     minute ≤ hour - (hour - 90 * second)) := by
  refine ⟨?_, ?_, by decide, by decide, by decide⟩
  · intro now st lu hlu hrun
    have hts : timeSince_v0 now st = now - lu := by
      simp [timeSince_v0, hlu]
    refine ⟨fun hp => ⟨fun hlt => ?_, fun hge => ?_⟩, fun hp => ⟨fun hlt => ?_, fun hge => ?_⟩⟩
    · simp [contribution_v0, pauseDue_v0, stopDue_v0, hrun, hp, hts, hlt]
    · have : ¬ now - lu < minute := by omega
      simp [contribution_v0, pauseDue_v0, hrun, hp, hts, this]
    · simp [contribution_v0, pauseDue_v0, stopDue_v0, hrun, hp, hts, hlt]
    · have : ¬ now - lu < hour := by omega
      simp [contribution_v0, stopDue_v0, hrun, hp, hts, this]
  · intro now st hrun
    simp [contribution_v0, pauseDue_v0, stopDue_v0, hrun]

/-- C4 witness: a running unpaused instance idle 30 seconds at `now = minute`
is kept by the part_000 revision with contribution 30 seconds. -/
theorem claim_C4_witness :
    contribution_v0 minute ⟨true, false, some (minute - 30 * second), "", none⟩
      = some (30 * second) ∧
    pauseDue_v0 minute ⟨true, false, some (minute - 30 * second), "", none⟩ = false := by
  have h := ((claim_C4_classification.1 minute
      ⟨true, false, some (minute - 30 * second), "", none⟩
      (minute - 30 * second) rfl rfl).1 rfl).1 (by decide)
  have harith : minute - (minute - (minute - 30 * second)) = 30 * second := by decide
  exact ⟨by rw [← harith]; exact h.1, h.2.1⟩

/-! ## Claims C7, C10: runtime write operations and the activation path -/

theorem setEntry_cons (k : String) (v : ContainerState) (rest : Cache)
    (m : String) (st : ContainerState) :
    setEntry ((k, v) :: rest) m st
      = (if k = m then (m, st) else (k, v)) :: setEntry rest m st := rfl

theorem lookup_setEntry (c : Cache) (m n : String) (st : ContainerState) :
    (setEntry c m st).lookup n =
      if n = m then (c.lookup n).map fun _ => st else c.lookup n := by
  induction c with
  | nil => by_cases h : n = m <;> simp [setEntry, h]
  | cons p rest ih =>
    obtain ⟨k, v⟩ := p
    by_cases hpm : k = m
    · subst hpm
      rw [setEntry_cons, if_pos rfl]
      by_cases hnk : n = k
      · subst hnk
        simp [List.lookup_cons]
      · simp [List.lookup_cons, beq_false_of_ne hnk, hnk, ih]
    · rw [setEntry_cons, if_neg hpm]
      by_cases hnk : n = k
      · subst hnk
        have hnm : ¬ n = m := hpm
        simp [List.lookup_cons, hnm]
      · simp [List.lookup_cons, beq_false_of_ne hnk, ih]

theorem isRegistered_setEntry (c : Cache) (m n : String) (st : ContainerState) :
    isRegistered (setEntry c m st) n = isRegistered c n := by
  by_cases h : n = m <;> simp [isRegistered, lookup_setEntry, h]

theorem GetState_ok_of_isSome {c : Cache} {name : String}
    (h : (c.lookup name).isSome = true) : ∃ st, GetState c name = .ok st := by
  cases hl : c.lookup name with
  | none => rw [hl] at h; simp at h
  | some st => exact ⟨st, by simp [GetState, hl]⟩

theorem CheckContainer_ok_cache (now : Int) (ins : Except DockerError InspectJson)
    (c : Cache) (name : String) (r : Bool × Cache)
    (h : CheckContainer now ins c name = .ok r) :
    (r.2.lookup name).isSome = true ∧ ∀ n, isRegistered r.2 n = isRegistered c n := by
  cases hl : c.lookup name with
  | none =>
    have hreg : isRegistered c name = false := by simp [isRegistered, hl]
    simp [CheckContainer, hreg] at h
  | some st =>
    have hreg : isRegistered c name = true := by simp [isRegistered, hl]
    cases ins with
    | error e => simp [CheckContainer, hreg] at h
    | ok res =>
      simp [CheckContainer, hreg, updateState, hl] at h
      subst h
      refine ⟨?_, fun n => ?_⟩
      · simp [lookup_setEntry, hl]
      · simp [isRegistered_setEntry]

theorem UnpauseContainer_ok_cache (now : Int) (cmdRes : Option DockerError)
    (c : Cache) (name : String) (c' : Cache)
    (h : UnpauseContainer now cmdRes c name = .ok c') :
    (c'.lookup name).isSome = true ∧ ∀ n, isRegistered c' n = isRegistered c n := by
  cases hl : c.lookup name with
  | none =>
    have hreg : isRegistered c name = false := by simp [isRegistered, hl]
    simp [UnpauseContainer, hreg] at h
  | some st =>
    have hreg : isRegistered c name = true := by simp [isRegistered, hl]
    cases cmdRes with
    | some e => simp [UnpauseContainer, hreg] at h
    | none =>
      simp [UnpauseContainer, hreg, updatePaused, hl] at h
      refine ⟨?_, fun n => ?_⟩
      · rw [← h, lookup_setEntry]
        simp [hl]
      · rw [← h, isRegistered_setEntry]

theorem StartContainer_ok_cache (now : Int) (cmdRes : Option DockerError)
    (ins : Except DockerError InspectJson) (c : Cache) (name : String) (c' : Cache)
    (h : StartContainer now cmdRes ins c name = .ok c') :
    (c'.lookup name).isSome = true ∧ ∀ n, isRegistered c' n = isRegistered c n := by
  by_cases hreg : isRegistered c name = true
  · cases cmdRes with
    | some e => simp [StartContainer, hreg] at h
    | none =>
      cases hcc : CheckContainer now ins c name with
      | error e => simp [StartContainer, hreg, hcc] at h
      | ok r =>
        simp [StartContainer, hreg, hcc] at h
        obtain ⟨h1, h2⟩ := CheckContainer_ok_cache now ins c name r hcc
        exact h ▸ ⟨h1, h2⟩
  · simp [StartContainer, eq_false_of_ne_true hreg] at h

theorem ensureAfterRefresh_ok (now : Int) (cmdRes : Option DockerError)
    (startInspect : Except DockerError InspectJson)
    (c1 : Cache) (name : String) (c' : Cache)
    (h : ensureAfterRefresh now cmdRes startInspect c1 name = .ok c') :
    (c'.lookup name).isSome = true ∧ ∀ n, isRegistered c' n = isRegistered c1 n := by
  unfold ensureAfterRefresh at h
  split at h
  · exact absurd h (by simp)
  · rename_i st hg
    have hsome : (c1.lookup name).isSome = true := by
      cases hl : c1.lookup name with
      | none => simp [GetState, hl] at hg
      | some s => simp
    split at h
    · exact UnpauseContainer_ok_cache now cmdRes c1 name c' h
    · split at h
      · exact StartContainer_ok_cache now cmdRes startInspect c1 name c' h
      · cases h
        exact ⟨hsome, fun n => rfl⟩

/-- C7 (amended): after a successful stop the cached flags become
`running=false, paused=false`; after a successful pause `paused=true`; after a
successful unpause `paused=false` — each stamping a fresh refresh time while
leaving the address and last-used fields untouched, with no new inspect.
After a successful start, the part_004 revision performs a fresh inspect, so
the cached flags and address come from the inspect result (the address may
have changed across the restart); the src/docker/init.go revision instead
writes `running=true, paused=false` with a fresh stamp and no inspect, leaving
the cached address unchanged. -/
theorem claim_C7_cache_updates (now : Int) (c : Cache) (name : String)
    (st : ContainerState) (hst : c.lookup name = some st) :
    StopContainer now none c name =
      .ok (setEntry c name
        { st with Running := false, Paused := false, LastUpdate := some now }) ∧
    PauseContainer now none c name =
      .ok (setEntry c name { st with Paused := true, LastUpdate := some now }) ∧
    UnpauseContainer now none c name =
      .ok (setEntry c name { st with Paused := false, LastUpdate := some now }) ∧
    (∀ res : InspectJson,
      StartContainer now none (.ok res) c name =
        .ok (setEntry c name
          { st with Running := res.Running,
                    Paused := res.Paused,
                    IPAddress := (if res.IPAddress ≠ "" then res.IPAddress
                      else ((res.Networks.find? fun v => v ≠ "").getD "")),
                    LastUpdate := some now })) ∧
    StartContainerOld now none c name =
      .ok (setEntry c name
        { st with Running := true, Paused := false, LastUpdate := some now }) := by
  have hreg : isRegistered c name = true := by simp [isRegistered, hst]
  refine ⟨?_, ?_, ?_, fun res => ?_, ?_⟩
  · simp [StopContainer, hreg, updateRunning, hst]
  · simp [PauseContainer, hreg, updatePaused, hst]
  · simp [UnpauseContainer, hreg, updatePaused, hst]
  · simp [StartContainer, CheckContainer, hreg, updateState, hst]
  · simp [StartContainerOld, hreg, updateRunning, hst]

/-- C7 witness: concrete runs of the write operations against a one-entry
cache, showing the stop path preserving the address and the part_004 start
path adopting the freshly inspected address. -/
theorem claim_C7_witness :
    StopContainer 5 none [("bs-a", ⟨true, false, none, "10.0.0.1", none⟩)] "bs-a" =
      .ok [("bs-a", ⟨false, false, none, "10.0.0.1", some 5⟩)] ∧
    StartContainer 5 none (.ok ⟨true, false, "10.0.0.2", []⟩)
        [("bs-a", ⟨true, false, none, "10.0.0.1", none⟩)] "bs-a" =
      .ok [("bs-a", ⟨true, false, none, "10.0.0.2", some 5⟩)] := by
  have h1 := claim_C7_cache_updates 5 [("bs-a", ⟨true, false, none, "10.0.0.1", none⟩)]
      "bs-a" ⟨true, false, none, "10.0.0.1", none⟩ rfl
  refine ⟨?_, ?_⟩
  · rw [h1.1]
    rfl
  · rw [h1.2.2.2.1 ⟨true, false, "10.0.0.2", []⟩]
    rfl

/-- C7 counterexample: in the src/docker/init.go revision a successful start
performs no fresh inspect — the cached address stays at its stale value
("10.0.0.1") even though an inspect of the restarted container (as the
part_004 revision performs via `CheckContainer`) reports "10.0.0.2". -/
theorem claim_C7_counterexample :
    StartContainerOld 5 none [("bs-a", ⟨false, false, none, "10.0.0.1", some 0⟩)] "bs-a" =
      .ok [("bs-a", ⟨true, false, none, "10.0.0.1", some 5⟩)] ∧
    CheckContainer 5 (.ok ⟨true, false, "10.0.0.2", []⟩)
        [("bs-a", ⟨false, false, none, "10.0.0.1", some 0⟩)] "bs-a" =
      .ok (true, [("bs-a", ⟨true, false, none, "10.0.0.2", some 5⟩)]) ∧
    "10.0.0.1" ≠ "10.0.0.2" := by
  refine ⟨by rfl, by rfl, by decide⟩

/-- C10: whenever `EnsureContainerRunning` returns without error, the name is
registered in the resulting cache so the immediately following `GetState`
cannot fail — the proxy's deliberately ignored error is unreachable after a
successful activation — and no registration present before the call is ever
deleted by it. -/
theorem claim_C10_ensure_then_get (now : Int)
    (staleInspect : Except DockerError InspectJson) (cmdRes : Option DockerError)
    (startInspect : Except DockerError InspectJson)
    (c : Cache) (name : String) (c' : Cache)
    (h : EnsureContainerRunning now staleInspect cmdRes startInspect c name = .ok c') :
    isRegistered c' name = true ∧
    (∃ st, GetState c' name = .ok st) ∧
    (∀ n, isRegistered c n = true → isRegistered c' n = true) := by
  unfold EnsureContainerRunning at h
  split at h
  · split at h
    · exact absurd h (by simp)
    · rename_i r hcc
      obtain ⟨h1, h2⟩ := ensureAfterRefresh_ok now cmdRes startInspect r.2 name c' h
      obtain ⟨h3, h4⟩ := CheckContainer_ok_cache now staleInspect c name r hcc
      exact ⟨by simpa [isRegistered] using h1, GetState_ok_of_isSome h1,
        fun n hn => by rw [h2, h4]; exact hn⟩
  · obtain ⟨h1, h2⟩ := ensureAfterRefresh_ok now cmdRes startInspect c name c' h
    exact ⟨by simpa [isRegistered] using h1, GetState_ok_of_isSome h1,
      fun n hn => by rw [h2]; exact hn⟩

/-- C10 witness: a registered, fresh, running and unpaused instance activates
without error (no-op path) and the following `GetState` succeeds. -/
theorem claim_C10_witness :
    isRegistered [("bs-a", ⟨true, false, none, "10.0.0.1", some 0⟩)] "bs-a" = true ∧
    (∃ st, GetState [("bs-a", ⟨true, false, none, "10.0.0.1", some 0⟩)] "bs-a" = .ok st) := by
  have h := claim_C10_ensure_then_get 0 (.error .DoesNotExist) none (.error .DoesNotExist)
      [("bs-a", ⟨true, false, none, "10.0.0.1", some 0⟩)] "bs-a"
      [("bs-a", ⟨true, false, none, "10.0.0.1", some 0⟩)] (by rfl)
  exact ⟨h.1, h.2.1⟩

/-! ## Claims C5, C6: webhook gatekeeping -/

theorem length_three_ext (l : List String) (hlen : l.length = 3)
    (a b c : String) (h0 : l.get? 0 = some a) (h1 : l.get? 1 = some b)
    (h2 : l.get? 2 = some c) : l = [a, b, c] := by
  cases l with
  | nil => simp at hlen
  | cons x t =>
    cases t with
    | nil => simp at hlen
    | cons y t2 =>
      cases t2 with
      | nil => simp at hlen
      | cons z t3 =>
        cases t3 with
        | cons w t4 => simp at hlen
        | nil =>
          simp at h0 h1 h2
          subst h0; subst h1; subst h2
          rfl

theorem refGate_flags (config : List (String × buildConfigT))
    (request : pushRequest) (conf : buildConfigT) :
    ((webhookRefGate config request conf).deployStarted = false ∧
     (webhookRefGate config request conf).queuedSet = false) ∨
    goSplit request.Ref '/' = ["refs", "heads", request.Repository.DefaultBranch] := by
  rcases hh : webhookRefGate config request conf with ⟨s, ds, qs, cf⟩
  unfold webhookRefGate at hh
  split at hh
  · cases hh
    exact Or.inl ⟨rfl, rfl⟩
  rename_i h1
  split at hh
  · cases hh
    exact Or.inl ⟨rfl, rfl⟩
  rename_i h2
  split at hh
  · cases hh
    exact Or.inl ⟨rfl, rfl⟩
  rename_i h3
  split at hh
  · cases hh
    exact Or.inl ⟨rfl, rfl⟩
  rename_i h4
  push_neg at h1
  exact Or.inr (length_three_ext _ h1.1 _ _ _ h1.2 (not_ne_iff.mp h3) (not_ne_iff.mp h4))

theorem eventGate_flags (config : List (String × buildConfigT)) (r : WebhookRequest)
    (request : pushRequest) (conf : buildConfigT) :
    ((webhookEventGate config r request conf).deployStarted = false ∧
     (webhookEventGate config r request conf).queuedSet = false) ∨
    (r.event = "push" ∧ request.Repository.Private = false ∧
     goSplit request.Ref '/' = ["refs", "heads", request.Repository.DefaultBranch]) := by
  rcases hh : webhookEventGate config r request conf with ⟨s, ds, qs, cf⟩
  unfold webhookEventGate at hh
  split at hh
  · cases hh
    exact Or.inl ⟨rfl, rfl⟩
  split at hh
  · cases hh
    exact Or.inl ⟨rfl, rfl⟩
  rename_i hpush
  split at hh
  · cases hh
    exact Or.inl ⟨rfl, rfl⟩
  rename_i hpriv
  rcases refGate_flags config request conf with hfl | heq
  · rw [hh] at hfl
    exact Or.inl hfl
  · exact Or.inr ⟨not_ne_iff.mp hpush, eq_false_of_ne_true hpriv, heq⟩

theorem refGate_nondefault (config : List (String × buildConfigT))
    (request : pushRequest) (conf : buildConfigT)
    (hrefne : goSplit request.Ref '/'
      ≠ ["refs", "heads", request.Repository.DefaultBranch]) :
    webhookRefGate config request conf = ⟨200, false, false, config⟩ := by
  unfold webhookRefGate
  split
  · rfl
  rename_i h1
  split
  · rfl
  rename_i h2
  split
  · rfl
  rename_i h3
  split
  · rfl
  rename_i h4
  push_neg at h1
  exact absurd
    (length_three_ext _ h1.1 _ _ _ h1.2 (not_ne_iff.mp h3) (not_ne_iff.mp h4)) hrefne

theorem handler_flags (hmacBytes : String → String → String → List Nat)
    (config : List (String × buildConfigT)) (r : WebhookRequest) :
    ((githubWebhookHandler hmacBytes config r).deployStarted = false ∧
     (githubWebhookHandler hmacBytes config r).queuedSet = false) ∨
    (r.event = "push" ∧ ∃ request,
      r.parsed = some request ∧
      request.Repository.Private = false ∧
      goSplit request.Ref '/' = ["refs", "heads", request.Repository.DefaultBranch]) := by
  rcases hh : githubWebhookHandler hmacBytes config r with ⟨s, ds, qs, cf⟩
  unfold githubWebhookHandler at hh
  split at hh
  · cases hh
    exact Or.inl ⟨rfl, rfl⟩
  split at hh
  · cases hh
    exact Or.inl ⟨rfl, rfl⟩
  split at hh
  · cases hh
    exact Or.inl ⟨rfl, rfl⟩
  rename_i body hbody
  split at hh
  · cases hh
    exact Or.inl ⟨rfl, rfl⟩
  rename_i request hparsed
  split at hh
  · cases hh
    exact Or.inl ⟨rfl, rfl⟩
  rename_i conf hconf
  split at hh <;>
    (split at hh
     · cases hh
       exact Or.inl ⟨rfl, rfl⟩
     · rcases eventGate_flags config r request conf with hfl | hcond
       · rw [hh] at hfl
         exact Or.inl hfl
       · exact Or.inr ⟨hcond.1, request, hparsed, hcond.2.1, hcond.2.2⟩)

/-- C5 (amended): in the part_003 revision, every webhook request whose
signature fails verification against the repository's secret is rejected with
an access-denied response before any inspection of the event or the ref — in
particular for a ping event or a push to a non-default branch — and the build
state is untouched.  In the src/api/github.go revision the event field is
inspected first: a ping event is acknowledged 200 (and a non-push rejected
403) without any signature verification, so only push events reach the
signature check. -/
theorem claim_C5_sig_before_event
    (hmacBytes : String → String → String → List Nat)
    (config : List (String × buildConfigT)) (r : WebhookRequest)
    (body : String) (request : pushRequest) (conf : buildConfigT) (e : SecretErr)
    (hagent : strStartsWith r.agent "GitHub-Hookshot/" = true)
    (hct : r.contentType = "application/json")
    (hbody : r.body = some body)
    (hparsed : r.parsed = some request)
    (hconf : config.lookup request.Repository.FullName = some conf)
    (hsig : checkSecret hmacBytes body conf.Secret
        (if r.sig256 ≠ "" then r.sig256 else r.sig) = some e) :
    githubWebhookHandler hmacBytes config r = ⟨401, false, false, config⟩ ∧
    (∀ (secrets : List (String × String)) (rOld : WebhookRequestOld) (bodyO : String),
      strStartsWith rOld.agent "GitHub-Hookshot/" = true →
      rOld.contentType = "application/json" →
      rOld.body = some bodyO →
      rOld.parsedAction = some "ping" →
      githubWebhookHandlerOld hmacBytes secrets rOld = ⟨200, false⟩) := by
  have hsig2 : checkSecret hmacBytes body conf.Secret
      (if r.sig256 = "" then r.sig else r.sig256) = some e := by
    rw [← ite_not]
    exact hsig
  constructor
  · simp [githubWebhookHandler, hagent, hct, hbody, hparsed, hconf, hsig2]
  · intro secrets rOld bodyO hA hC hB hP
    simp [githubWebhookHandlerOld, hA, hC, hB, hP]

/-- C5 witness: a ping request whose signature header does not even parse is
rejected 401 by the part_003 handler, and acknowledged 200 by the
src/api/github.go handler. -/
theorem claim_C5_witness :
    githubWebhookHandler (fun _ _ _ => []) [("o/r", ⟨"s", false, false⟩)]
      ⟨"ping", "bad", "", "application/json", "GitHub-Hookshot/7", some "x",
       some ⟨"refs/heads/main", ⟨false, "o/r", "main"⟩⟩⟩
    = ⟨401, false, false, [("o/r", ⟨"s", false, false⟩)]⟩ ∧
    githubWebhookHandlerOld (fun _ _ _ => []) []
      ⟨"bad", "", "application/json", "GitHub-Hookshot/7", some "x",
       some "ping", none⟩ = ⟨200, false⟩ := by
  have h := claim_C5_sig_before_event (fun _ _ _ => [])
      [("o/r", ⟨"s", false, false⟩)]
      ⟨"ping", "bad", "", "application/json", "GitHub-Hookshot/7", some "x",
       some ⟨"refs/heads/main", ⟨false, "o/r", "main"⟩⟩⟩
      "x" ⟨"refs/heads/main", ⟨false, "o/r", "main"⟩⟩ ⟨"s", false, false⟩
      .badSignature (by decide) rfl rfl rfl (by rfl) (by rfl)
  exact ⟨h.1, h.2 [] ⟨"bad", "", "application/json", "GitHub-Hookshot/7", some "x",
       some "ping", none⟩ "x" (by decide) rfl rfl rfl⟩

/-- C5 counterexample: in the src/api/github.go revision a ping event carrying
an invalid signature (`checkSecret` rejects it) is acknowledged with 200
"pong", not rejected — the event is inspected before the signature. -/
theorem claim_C5_counterexample :
    githubWebhookHandlerOld (fun _ _ _ => []) [("battlesnake-o-r", "s")]
      ⟨"bad", "", "application/json", "GitHub-Hookshot/7", some "x",
       some "ping", some ⟨"refs/heads/main", ⟨false, "o/r"⟩⟩⟩ = ⟨200, false⟩ ∧
    checkSecret (fun _ _ _ => []) "x" "s" "bad" = some .badSignature := by
  exact ⟨by rfl, by rfl⟩

/-- C6 (amended): in the part_003 revision the build pipeline is triggered —
deploy spawned, or a rebuild queued behind the in-flight one — only for a push
event on a public repository whose ref splits exactly as
refs/heads/<default branch>; a validly signed ping is acknowledged 200 without
touching the pipeline, and a validly signed push whose ref is a tag, another
branch, or malformed is acknowledged 200 without triggering a build.  In the
src/api/github.go revision the ref is never inspected: every validly signed
push event on a public repository spawns the build regardless of its ref. -/
theorem claim_C6_default_branch_gate
    (hmacBytes : String → String → String → List Nat)
    (config : List (String × buildConfigT)) (r : WebhookRequest) :
    (((githubWebhookHandler hmacBytes config r).deployStarted = true ∨
      (githubWebhookHandler hmacBytes config r).queuedSet = true) →
      r.event = "push" ∧ ∃ request,
        r.parsed = some request ∧
        request.Repository.Private = false ∧
        goSplit request.Ref '/' = ["refs", "heads", request.Repository.DefaultBranch]) ∧
    (∀ (body : String) (request : pushRequest) (conf : buildConfigT),
      strStartsWith r.agent "GitHub-Hookshot/" = true →
      r.contentType = "application/json" →
      r.body = some body →
      r.parsed = some request →
      config.lookup request.Repository.FullName = some conf →
      checkSecret hmacBytes body conf.Secret
        (if r.sig256 ≠ "" then r.sig256 else r.sig) = none →
      (r.event = "ping" →
        githubWebhookHandler hmacBytes config r = ⟨200, false, false, config⟩) ∧
      (r.event = "push" → request.Repository.Private = false →
        goSplit request.Ref '/' ≠ ["refs", "heads", request.Repository.DefaultBranch] →
        (githubWebhookHandler hmacBytes config r).status = 200 ∧
        (githubWebhookHandler hmacBytes config r).deployStarted = false ∧
        (githubWebhookHandler hmacBytes config r).queuedSet = false)) ∧
    (∀ (secrets : List (String × String)) (rOld : WebhookRequestOld)
        (bodyO : String) (request : pushRequestOld),
      strStartsWith rOld.agent "GitHub-Hookshot/" = true →
      rOld.contentType = "application/json" →
      rOld.body = some bodyO →
      rOld.parsedAction = some "push" →
      rOld.parsedPush = some request →
      checkSecret hmacBytes bodyO
        ((secrets.lookup (fullNameToContainerName request.Repository.FullName)).getD "")
        (if rOld.sig256 ≠ "" then rOld.sig256 else rOld.sig) = none →
      request.Repository.Private = false →
      githubWebhookHandlerOld hmacBytes secrets rOld = ⟨200, true⟩) := by
  refine ⟨?_, ?_, ?_⟩
  · intro hflag
    rcases handler_flags hmacBytes config r with hfalse | hcond
    · rcases hflag with h | h
      · rw [hfalse.1] at h
        simp at h
      · rw [hfalse.2] at h
        simp at h
    · exact hcond
  · intro body request conf hagent hct hbody hparsed hconf hsig
    have hsig2 : checkSecret hmacBytes body conf.Secret
        (if r.sig256 = "" then r.sig else r.sig256) = none := by
      rw [← ite_not]
      exact hsig
    constructor
    · intro hping
      simp [githubWebhookHandler, webhookEventGate, hagent, hct, hbody, hparsed, hconf,
        hsig2, hping]
    · intro hpush hpriv hrefne
      have hnp : ¬ r.event = "ping" := by
        rw [hpush]
        decide
      have hgate : webhookEventGate config r request conf = ⟨200, false, false, config⟩ := by
        simp [webhookEventGate, hpush, hpriv, hnp,
          refGate_nondefault config request conf hrefne]
      simp [githubWebhookHandler, hagent, hct, hbody, hparsed, hconf, hsig2, hgate]
  · intro secrets rOld bodyO request hagent hct hbody hact hpush hsig hpriv
    have hsig2 : checkSecret hmacBytes bodyO
        ((secrets.lookup (fullNameToContainerName request.Repository.FullName)).getD "")
        (if rOld.sig256 = "" then rOld.sig else rOld.sig256) = none := by
      rw [← ite_not]
      exact hsig
    simp [githubWebhookHandlerOld, hagent, hct, hbody, hact, hpush, hsig2, hpriv]

/-- C6 witness: a validly signed ping is acknowledged 200 by the part_003
handler without touching the build state. -/
theorem claim_C6_witness :
    githubWebhookHandler (fun _ _ _ => []) [("o/r", ⟨"s", false, false⟩)]
      ⟨"ping", "", "sha1=", "application/json", "GitHub-Hookshot/7", some "x",
       some ⟨"refs/heads/main", ⟨false, "o/r", "main"⟩⟩⟩
    = ⟨200, false, false, [("o/r", ⟨"s", false, false⟩)]⟩ := by
  have h := (claim_C6_default_branch_gate (fun _ _ _ => [])
      [("o/r", ⟨"s", false, false⟩)]
      ⟨"ping", "", "sha1=", "application/json", "GitHub-Hookshot/7", some "x",
       some ⟨"refs/heads/main", ⟨false, "o/r", "main"⟩⟩⟩).2.1
      "x" ⟨"refs/heads/main", ⟨false, "o/r", "main"⟩⟩ ⟨"s", false, false⟩
      (by decide) rfl rfl rfl (by rfl) (by rfl)
  exact h.1 rfl

/-- C6 counterexample: in the src/api/github.go revision a validly signed push
to the tag ref "refs/tags/v1.0" spawns the deploy — the ref is never
inspected — contradicting "a push to a tag ref is acknowledged without
invoking the build". -/
theorem claim_C6_counterexample :
    githubWebhookHandlerOld (fun _ _ _ => []) [("battlesnake-o-r", "s")]
      ⟨"sha1=", "", "application/json", "GitHub-Hookshot/7", some "x",
       some "push", some ⟨"refs/tags/v1.0", ⟨false, "o/r"⟩⟩⟩ = ⟨200, true⟩ ∧
    checkSecret (fun _ _ _ => []) "x"
      (([("battlesnake-o-r", "s")].lookup (fullNameToContainerName "o/r")).getD "")
      "sha1=" = none := by
  exact ⟨by rfl, by rfl⟩

/-! ## Claim C1: per-repository rebuild coalescing -/

theorem requests_idem (k n : Nat) :
    runBuildEvents (⟨true, true⟩, n) (List.replicate k .request) = (⟨true, true⟩, n) := by
  induction k with
  | zero => rfl
  | succ k ih =>
    rw [List.replicate_succ]
    unfold runBuildEvents at ih ⊢
    rw [List.foldl_cons]
    simpa [buildStep, requestBuild] using ih

/-- C1: per-repository rebuild coalescing.  A request while the lock is held
sets the queued flag and starts no work; a deploy completing with the flag set
clears it and starts exactly one more run while still holding the lock; a
deploy completing with no rebuild queued releases the lock; the
queued-implies-locked invariant is preserved and every run starts with the
lock held (so the mutex serializes runs); and from a building state, any
number k+1 of requests arriving mid-build followed by the in-flight completion
and the follow-up completion yields exactly one additional run and an idle,
unlocked state. -/
theorem claim_C1_coalescing :
    (∀ (s : BuildState) (n : Nat), s.locked = true →
      buildStep (s, n) .request = (⟨true, true⟩, n)) ∧
    (∀ (s : BuildState) (n : Nat), s.queued = true →
      buildStep (s, n) .finish = (⟨s.locked, false⟩, n + 1)) ∧
    (∀ (s : BuildState) (n : Nat), s.queued = false →
      buildStep (s, n) .finish = (⟨false, false⟩, n)) ∧
    (∀ (s : BuildState) (n : Nat) (e : BuildEvent),
      (s.queued = true → s.locked = true) →
      ((buildStep (s, n) e).1.queued = true → (buildStep (s, n) e).1.locked = true) ∧
      (n < (buildStep (s, n) e).2 → (buildStep (s, n) e).1.locked = true)) ∧
    (∀ (k n : Nat),
      runBuildEvents (⟨true, false⟩, n)
          (List.replicate (k + 1) .request ++ [.finish, .finish])
        = (⟨false, false⟩, n + 1)) := by
  refine ⟨?_, ?_, ?_, ?_, ?_⟩
  · intro s n h
    simp [buildStep, requestBuild, h]
  · intro s n h
    simp [buildStep, finishDeploy, h]
  · intro s n h
    simp [buildStep, finishDeploy, h]
  · intro s n e hinv
    cases e
    · by_cases hl : s.locked = true
      · simp [buildStep, requestBuild, hl]
      · simp [buildStep, requestBuild, eq_false_of_ne_true hl]
    · by_cases hq : s.queued = true
      · simp [buildStep, finishDeploy, hq, hinv hq]
      · simp [buildStep, finishDeploy, eq_false_of_ne_true hq]
  · intro k n
    unfold runBuildEvents
    rw [List.replicate_succ, List.cons_append, List.foldl_cons]
    have h1 : buildStep (⟨true, false⟩, n) .request = (⟨true, true⟩, n) := by
      simp [buildStep, requestBuild]
    rw [h1, List.foldl_append]
    have h2 := requests_idem k n
    unfold runBuildEvents at h2
    rw [h2]
    simp [buildStep, finishDeploy]

/-- C1 witness: concrete protocol steps — a request during a build queues
without a new run; completion with a queued rebuild runs once more holding the
lock; completion with nothing queued unlocks; three requests mid-build yield
exactly one extra run. -/
theorem claim_C1_witness :
    buildStep (⟨true, false⟩, 5) .request = (⟨true, true⟩, 5) ∧
    buildStep (⟨true, true⟩, 5) .finish = (⟨true, false⟩, 6) ∧
    buildStep (⟨true, false⟩, 6) .finish = (⟨false, false⟩, 6) ∧
    runBuildEvents (⟨true, false⟩, 0)
        (List.replicate 3 .request ++ [.finish, .finish]) = (⟨false, false⟩, 1) := by
  exact ⟨claim_C1_coalescing.1 ⟨true, false⟩ 5 rfl,
    claim_C1_coalescing.2.1 ⟨true, true⟩ 5 rfl,
    claim_C1_coalescing.2.2.1 ⟨true, false⟩ 6 rfl,
    claim_C1_coalescing.2.2.2.2 2 0⟩

/-! ## Claims C8, C9: the deploy pipeline's pruning and failure frame -/

theorem imageCleanup_fold (lines : List (Option String)) (seen : List String) :
    (∀ i : String,
      i ∈ lines.foldl
          (fun seen l =>
            match l with
            | none => seen
            | some id => if id ∈ seen then seen else seen ++ [id]) seen ↔
        i ∈ seen ∨ some i ∈ lines) ∧
    (seen.Nodup →
      (lines.foldl
          (fun seen l =>
            match l with
            | none => seen
            | some id => if id ∈ seen then seen else seen ++ [id]) seen).Nodup) := by
  induction lines generalizing seen with
  | nil => simp
  | cons l rest ih =>
    cases l with
    | none =>
      simp only [List.foldl_cons]
      refine ⟨fun i => ?_, fun h => (ih seen).2 h⟩
      rw [(ih seen).1 i]
      simp
    | some id =>
      by_cases hmem : id ∈ seen
      · simp only [List.foldl_cons, if_pos hmem]
        refine ⟨fun i => ?_, fun h => (ih seen).2 h⟩
        rw [(ih seen).1 i]
        simp only [List.mem_cons, Option.some.injEq]
        constructor
        · rintro (h | h)
          · exact Or.inl h
          · exact Or.inr (Or.inr h)
        · rintro (h | h | h)
          · exact Or.inl h
          · subst h
            exact Or.inl hmem
          · exact Or.inr h
      · simp only [List.foldl_cons, if_neg hmem]
        refine ⟨fun i => ?_, fun h => ?_⟩
        · rw [(ih (seen ++ [id])).1 i]
          simp only [List.mem_append, List.mem_singleton, List.mem_cons,
            Option.some.injEq]
          tauto
        · refine (ih (seen ++ [id])).2 ?_
          simp [List.nodup_append, h, hmem, List.disjoint_singleton]

theorem deployRunPhase_success (env : DeployEnv) (s r : Bool) :
    (deployRunPhase env s r).succeeded = false ∨
    (deployRunPhase env s r).rmiAttempts = imageCleanupIds env.imageLines := by
  rcases hh : deployRunPhase env s r with ⟨a1, a2, a3, a4, a5, a6, a7, a8⟩
  unfold deployRunPhase at hh
  split at hh
  · cases hh
    exact Or.inl rfl
  split at hh
  · cases hh
    exact Or.inl rfl
  · cases hh
    exact Or.inr rfl

theorem deployBuildPhase_success (env : DeployEnv) (ex : Bool) :
    (deployBuildPhase env ex).succeeded = false ∨
    (deployBuildPhase env ex).rmiAttempts = imageCleanupIds env.imageLines := by
  unfold deployBuildPhase
  split
  · exact Or.inl rfl
  split
  · exact Or.inl rfl
  split
  · split
    · exact Or.inl rfl
    split
    · exact Or.inl rfl
    · exact deployRunPhase_success env true true
  · exact deployRunPhase_success env false false

theorem deployAfterCheck_success (env : DeployEnv) (ex : Bool) :
    (deployAfterCheck env ex).succeeded = false ∨
    (deployAfterCheck env ex).rmiAttempts = imageCleanupIds env.imageLines := by
  unfold deployAfterCheck
  split
  · exact Or.inl rfl
  split
  · exact Or.inl rfl
  split
  · exact Or.inl rfl
  split
  · exact Or.inl rfl
  · exact deployBuildPhase_success env ex

theorem deploy_success_prune (env : DeployEnv) :
    (deployApplication env).succeeded = false ∨
    (deployApplication env).rmiAttempts = imageCleanupIds env.imageLines := by
  unfold deployApplication
  split
  · exact Or.inl rfl
  split
  · exact deployAfterCheck_success env false
  · exact Or.inl rfl
  · exact deployAfterCheck_success env true

/-- C8 (amended): the pruning after a successful deploy attempts removal of
exactly the distinct image identifiers present in the pre-build snapshot,
each at most once (ids carrying multiple tags are deduplicated via `seenIds`);
no comparison with the newly built image's identifier is made anywhere — the
pipeline never computes the new image's id — so an id equal to the new image's
is also removed if it appeared in the snapshot. -/
theorem claim_C8_prune_dedup :
    (∀ lines : List (Option String),
      (∀ i : String, i ∈ imageCleanupIds lines ↔ some i ∈ lines) ∧
      (imageCleanupIds lines).Nodup) ∧
    (∀ env : DeployEnv, (deployApplication env).succeeded = true →
      (deployApplication env).rmiAttempts = imageCleanupIds env.imageLines) := by
  constructor
  · intro lines
    have h := imageCleanup_fold lines []
    constructor
    · intro i
      unfold imageCleanupIds
      rw [h.1 i]
      simp
    · have h2 := h.2 List.nodup_nil
      unfold imageCleanupIds
      exact h2
  · intro env hs
    rcases deploy_success_prune env with h | h
    · rw [h] at hs
      cases hs
    · exact h

/-- C8 witness: a successful deploy whose snapshot parses to ids
["a", "a", ⊥, "b"] attempts removal of exactly ["a", "b"]. -/
theorem claim_C8_witness :
    (deployApplication
        ⟨true, .ok ⟨true, false, "", []⟩, true, true, true, true,
          [some "a", some "a", none, some "b"], true, true, true, none, true, true,
          .ok ⟨true, false, "", []⟩⟩).rmiAttempts
      = imageCleanupIds [some "a", some "a", none, some "b"] := by
  exact claim_C8_prune_dedup.2
    ⟨true, .ok ⟨true, false, "", []⟩, true, true, true, true,
      [some "a", some "a", none, some "b"], true, true, true, none, true, true,
      .ok ⟨true, false, "", []⟩⟩ (by rfl)

/-- C8 counterexample: the pruning removes every distinct snapshot id with no
new-image exclusion: with a snapshot containing id "sha256:abc", the removal
of "sha256:abc" is attempted — so if the newly built image's id equals
"sha256:abc" (for instance a rebuild that produced an identical image), the
new image's id IS removed, contradicting "the new image's id is never removed
even if it already appeared in the snapshot".  The pipeline has no input at
all for the new image's id: removal depends only on the snapshot. -/
theorem claim_C8_counterexample :
    imageCleanupIds [some "sha256:abc"] = ["sha256:abc"] ∧
    (deployApplication
        ⟨true, .ok ⟨true, false, "", []⟩, true, true, true, true, [some "sha256:abc"],
          true, true, true, none, true, true, .ok ⟨true, false, "", []⟩⟩).rmiAttempts
      = ["sha256:abc"] := by
  exact ⟨by rfl, by rfl⟩

theorem deployRunPhase_dir (env : DeployEnv) (s r : Bool) :
    (deployRunPhase env s r).dirCreated = true ∧
    (deployRunPhase env s r).dirRemoved = true := by
  unfold deployRunPhase
  split
  · exact ⟨rfl, rfl⟩
  split
  · exact ⟨rfl, rfl⟩
  · exact ⟨rfl, rfl⟩

theorem deployBuildPhase_dir (env : DeployEnv) (ex : Bool) :
    (deployBuildPhase env ex).dirCreated = true ∧
    (deployBuildPhase env ex).dirRemoved = true := by
  unfold deployBuildPhase
  split
  · exact ⟨rfl, rfl⟩
  split
  · exact ⟨rfl, rfl⟩
  split
  · split
    · exact ⟨rfl, rfl⟩
    split
    · exact ⟨rfl, rfl⟩
    · exact deployRunPhase_dir env true true
  · exact deployRunPhase_dir env false false

theorem deployAfterCheck_dir (env : DeployEnv) (ex : Bool) :
    (deployAfterCheck env ex).dirRemoved = (deployAfterCheck env ex).dirCreated := by
  unfold deployAfterCheck
  split
  · rfl
  split
  · rfl
  split
  · rfl
  split
  · rfl
  · have h := deployBuildPhase_dir env ex
    rw [h.1, h.2]

theorem deployBuildPhase_frame (env : DeployEnv) (ex : Bool)
    (h : env.cloneOk = false ∨ env.buildOk = false) :
    deployBuildPhase env ex = { dirCreated := true, dirRemoved := true } := by
  rcases h with h | h
  · simp [deployBuildPhase, h]
  · by_cases hc : env.cloneOk = true
    · simp [deployBuildPhase, hc, h]
    · simp [deployBuildPhase, eq_false_of_ne_true hc]

/-- C9: in every deploy run where the clone step or the image-build step
fails, the pre-existing container is neither stopped (no stop attempt — the
sole cache-flag-clearing write), removed, nor replaced by a new container, and
the run does not succeed; and in every run whatsoever the scratch clone
directory is removed exactly when it was created — so both failed and
successful builds always clean it up. -/
theorem claim_C9_failed_build_frame (env : DeployEnv) :
    ((deployApplication env).dirRemoved = (deployApplication env).dirCreated) ∧
    (env.cloneOk = false ∨ env.buildOk = false →
      (deployApplication env).stopAttempted = false ∧
      (deployApplication env).stoppedOld = false ∧
      (deployApplication env).removedOld = false ∧
      (deployApplication env).ranNew = false ∧
      (deployApplication env).succeeded = false ∧
      ((deployApplication env).dirCreated = true →
        (deployApplication env).dirRemoved = true)) := by
  constructor
  · unfold deployApplication
    split
    · rfl
    split
    · exact deployAfterCheck_dir env false
    · rfl
    · exact deployAfterCheck_dir env true
  · intro h
    have hb0 := deployBuildPhase_frame env false h
    have hb1 := deployBuildPhase_frame env true h
    unfold deployApplication deployAfterCheck
    split
    · exact ⟨rfl, rfl, rfl, rfl, rfl, fun hc => (by cases hc)⟩
    split
    · split
      · exact ⟨rfl, rfl, rfl, rfl, rfl, fun hc => (by cases hc)⟩
      split
      · exact ⟨rfl, rfl, rfl, rfl, rfl, fun hc => (by cases hc)⟩
      split
      · exact ⟨rfl, rfl, rfl, rfl, rfl, fun hc => (by cases hc)⟩
      split
      · exact ⟨rfl, rfl, rfl, rfl, rfl, fun hc => (by cases hc)⟩
      · rw [hb0]
        exact ⟨rfl, rfl, rfl, rfl, rfl, fun _ => rfl⟩
    · exact ⟨rfl, rfl, rfl, rfl, rfl, fun hc => (by cases hc)⟩
    · split
      · exact ⟨rfl, rfl, rfl, rfl, rfl, fun hc => (by cases hc)⟩
      split
      · exact ⟨rfl, rfl, rfl, rfl, rfl, fun hc => (by cases hc)⟩
      split
      · exact ⟨rfl, rfl, rfl, rfl, rfl, fun hc => (by cases hc)⟩
      split
      · exact ⟨rfl, rfl, rfl, rfl, rfl, fun hc => (by cases hc)⟩
      · rw [hb1]
        exact ⟨rfl, rfl, rfl, rfl, rfl, fun _ => rfl⟩

/-- C9 witness: a run whose clone fails (with a pre-existing running
container) stops, removes and replaces nothing, does not succeed, and still
removes the scratch directory it created. -/
theorem claim_C9_witness :
    (deployApplication
        ⟨true, .ok ⟨true, false, "", []⟩, true, true, true, true, [], true, false,
          true, none, true, true, .ok ⟨true, false, "", []⟩⟩).stopAttempted = false ∧
    (deployApplication
        ⟨true, .ok ⟨true, false, "", []⟩, true, true, true, true, [], true, false,
          true, none, true, true, .ok ⟨true, false, "", []⟩⟩).dirRemoved
      = (deployApplication
        ⟨true, .ok ⟨true, false, "", []⟩, true, true, true, true, [], true, false,
          true, none, true, true, .ok ⟨true, false, "", []⟩⟩).dirCreated := by
  have h := claim_C9_failed_build_frame
    ⟨true, .ok ⟨true, false, "", []⟩, true, true, true, true, [], true, false,
      true, none, true, true, .ok ⟨true, false, "", []⟩⟩
  exact ⟨(h.2 (Or.inl rfl)).1, h.1⟩

end BattlesnakeManager
